import Mathlib

/-!
Verification of the ELYSIUM attendance bot's auction core (src/PYTHON/bidding.py
and src/PYTHON/auctioneering.py), shallowly embedded in Lean.

Modelling conventions:
* Python `dict` becomes an association list with unique keys (`alGet`, `alSet`,
  `alPop` mirror subscript read, subscript write and `pop`).
* Python `int` becomes `Int` (unbounded in both languages).
* Timestamps (Python floats from `datetime.now().timestamp()`) are modelled as
  integer seconds: every operation on them in the translated code is linear
  arithmetic and comparison, which agree with the float semantics on integral
  inputs.
* Discord I/O (messages, embeds, reactions, thread edits) is dropped; only the
  state mutations of each method are kept.
-/

namespace Elysium

/-! ### Association-list model of Python dicts -/

def alGet {κ α : Type} [DecidableEq κ] : List (κ × α) → κ → Option α
  | [], _ => none
  | (k', v) :: rest, k => if k' = k then some v else alGet rest k

def alGetD {κ α : Type} [DecidableEq κ] (d : List (κ × α)) (k : κ) (dflt : α) : α :=
  (alGet d k).getD dflt

def alSet {κ α : Type} [DecidableEq κ] : List (κ × α) → κ → α → List (κ × α)
  | [], k, v => [(k, v)]
  | (k', v') :: rest, k, v => if k' = k then (k, v) :: rest else (k', v') :: alSet rest k v

def alPop {κ α : Type} [DecidableEq κ] : List (κ × α) → κ → List (κ × α)
  | [], _ => []
  | (k', v') :: rest, k => if k' = k then alPop rest k else (k', v') :: alPop rest k

abbrev Dict := List (String × Int)

/-- Python `str.lower()` on the (ASCII) member names the bot handles. -/
def pyLower (s : String) : String := ⟨s.data.map Char.toLower⟩

/-! ### Point ledger (bidding.py lines 114-149) -/

structure LedgerState where
  cached_points : Option Dict
  locked_points : Dict
deriving Repr, DecidableEq

/-- `BiddingSystem.get_points` (bidding.py 114-130): 0 when no snapshot is
loaded, exact dict lookup first, case-insensitive fallback, else 0. -/
def get_points (s : LedgerState) (username : String) : Int :=
  match s.cached_points with
  | none => 0
  | some pts =>
    if pts = [] then 0
    else
      match alGet pts username with
      | some p => p
      | none =>
        match pts.find? (fun p => pyLower p.1 == pyLower username) with
        | some p => p.2
        | none => 0

/-- `BiddingSystem.get_available_points` (bidding.py 132-136). -/
def get_available_points (s : LedgerState) (username : String) : Int :=
  max 0 (get_points s username - alGetD s.locked_points username 0)

/-- `BiddingSystem.lock_points` (bidding.py 138-140). -/
def lock_points (s : LedgerState) (username : String) (amount : Int) : LedgerState :=
  { s with locked_points :=
      alSet s.locked_points username (alGetD s.locked_points username 0 + amount) }

/-- `BiddingSystem.unlock_points` (bidding.py 142-149): decrement floored at 0,
dropping the entry when it reaches 0. -/
def unlock_points (s : LedgerState) (username : String) (amount : Int) : LedgerState :=
  let current := alGetD s.locked_points username 0
  let new_amount := max 0 (current - amount)
  if new_amount = 0 then
    { s with locked_points := alPop s.locked_points username }
  else
    { s with locked_points := alSet s.locked_points username new_amount }

/-! ### Auction state (bidding.py dataclasses) -/

structure BidRecord where
  username : String
  user_id : Int
  amount : Int
  timestamp : Int
deriving Repr, DecidableEq

structure ActiveAuction where
  id : String
  item : String
  start_price : Int
  quantity : Int
  cur_bid : Int
  cur_winner : Option String
  cur_winner_id : Option Int
  bids : List BidRecord
  end_time : Int
  ext_count : Nat
  status : String
  going_once : Bool
  going_twice : Bool
deriving Repr, DecidableEq

structure PendingConfirmation where
  user_id : Int
  username : String
  amount : Int
  timestamp : Int
  orig_msg_id : Int
  is_self : Bool
  needed : Int
deriving Repr, DecidableEq

structure HistoryEntry where
  item : String
  winner : String
  winner_id : Int
  amount : Int
  timestamp : Int
deriving Repr, DecidableEq

structure QueueItem where
  id : String
  item : String
  start_price : Int
  duration : Int
  quantity : Int
deriving Repr, DecidableEq

structure BiddingSystem where
  ledger : LedgerState
  queue : List QueueItem
  active_auction : Option ActiveAuction
  history : List HistoryEntry
  pending_confirmations : List (Int × PendingConfirmation)
  last_bid_time : List (Int × Int)
deriving Repr, DecidableEq

def RATE_LIMIT : Int := 3
def MAX_EXTENSIONS : Nat := 15
def CONFIRM_TIMEOUT : Int := 10

/-- `BiddingSystem.load_points_cache` success path (bidding.py 92-112): replace
the snapshot, leave all locks in place. -/
def load_points_cache (s : BiddingSystem) (pts : Dict) : BiddingSystem :=
  { s with ledger := { s.ledger with cached_points := some pts } }

/-- Python truthiness of `self.cached_points`: falsy when `None` or `{}`. -/
def cacheFalsy (s : LedgerState) : Bool :=
  match s.cached_points with
  | none => true
  | some pts => pts.isEmpty

/-- The rate-limit test of bidding.py 509-515: a prior stamp within the last
`RATE_LIMIT` seconds rejects the bid. -/
def rateLimitHit (s : BiddingSystem) (member_id : Int) (now : Int) : Bool :=
  match alGet s.last_bid_time member_id with
  | none => false
  | some t => decide (now - t < RATE_LIMIT)

/-- The self-overbid test of bidding.py 543: the current winner exists and
matches the bidder case-insensitively. -/
def isSelfOverbid (a : ActiveAuction) (username : String) : Bool :=
  match a.cur_winner with
  | none => false
  | some w => pyLower w == pyLower username

inductive BidOutcome
  | noActiveAuction
  | wrongThread
  | noRole
  | rateLimited
  | invalidBid
  | tooLow
  | noCache
  | noPoints
  | insufficient
  | confirmationCreated
deriving Repr, DecidableEq

/-- `BiddingSystem.process_bid` (bidding.py 492-613) up to the creation of the
pending confirmation. `in_thread` abstracts the channel-id comparison of line
497, `has_role` the admin/ELYSIUM role check of line 504, and
`amount` is the result of `int(amount)` (`none` for a parse failure).
On success the pending record is stored under `conf_msg_id` and the bidder's
last-bid time is stamped (lines 581-592); the subsequent reaction wait is
modelled by a later explicit call to `confirm_bid`. -/
def process_bid (s : BiddingSystem) (member_id : Int) (username : String)
    (in_thread : Bool) (has_role : Bool) (amount : Option Int)
    (now : Int) (orig_msg_id : Int) (conf_msg_id : Int) :
    BiddingSystem × BidOutcome :=
  match s.active_auction with
  | none => (s, .noActiveAuction)
  | some a =>
    if a.status ≠ "active" then (s, .noActiveAuction)
    else if !in_thread then (s, .wrongThread)
    else if !has_role then (s, .noRole)
    else if rateLimitHit s member_id now then (s, .rateLimited)
    else
      match amount with
      | none => (s, .invalidBid)
      | some bid =>
        if bid ≤ 0 then (s, .invalidBid)
        else if bid ≤ a.cur_bid then (s, .tooLow)
        else if cacheFalsy s.ledger then (s, .noCache)
        else
          let total := get_points s.ledger username
          let available := get_available_points s.ledger username
          if total = 0 then (s, .noPoints)
          else
            let is_self := isSelfOverbid a username
            let cur_locked := alGetD s.ledger.locked_points username 0
            let needed := if is_self then max 0 (bid - cur_locked) else bid
            if available < needed then (s, .insufficient)
            else
              ({ s with
                  pending_confirmations :=
                    alSet s.pending_confirmations conf_msg_id
                      { user_id := member_id, username := username, amount := bid,
                        timestamp := now, orig_msg_id := orig_msg_id,
                        is_self := is_self, needed := needed },
                  last_bid_time := alSet s.last_bid_time member_id now },
               .confirmationCreated)

inductive ConfirmOutcome
  | noPending
  | staleRejected
  | applied
deriving Repr, DecidableEq

/-- `BiddingSystem.confirm_bid` (bidding.py 615-698): staleness re-check,
outbid release for a non-self previous winner, reservation of the pending
delta, auction update, and the extension rule of lines 656-662. -/
def confirm_bid (s : BiddingSystem) (conf_msg_id : Int) (now : Int) :
    BiddingSystem × ConfirmOutcome :=
  match alGet s.pending_confirmations conf_msg_id, s.active_auction with
  | none, _ => (s, .noPending)
  | some _, none => (s, .noPending)
  | some pending, some a =>
    if pending.amount ≤ a.cur_bid then
      ({ s with pending_confirmations := alPop s.pending_confirmations conf_msg_id },
       .staleRejected)
    else
      let ledger1 :=
        match a.cur_winner with
        | some w => if pending.is_self then s.ledger else unlock_points s.ledger w a.cur_bid
        | none => s.ledger
      let ledger2 := lock_points ledger1 pending.username pending.needed
      let a1 : ActiveAuction :=
        { a with
            cur_bid := pending.amount,
            cur_winner := some pending.username,
            cur_winner_id := some pending.user_id,
            bids := a.bids ++
              [{ username := pending.username, user_id := pending.user_id,
                 amount := pending.amount, timestamp := now }] }
      let time_left := a1.end_time - now
      let a2 :=
        if time_left < 60 ∧ a1.ext_count < MAX_EXTENSIONS then
          { a1 with end_time := a1.end_time + 60, ext_count := a1.ext_count + 1,
                    going_once := false, going_twice := false }
        else a1
      ({ s with ledger := ledger2, active_auction := some a2,
                pending_confirmations := alPop s.pending_confirmations conf_msg_id },
       .applied)

/-- `BiddingSystem.cancel_bid` / `timeout_bid` (bidding.py 700-742): drop the
pending record, no other state change. -/
def cancel_bid (s : BiddingSystem) (conf_msg_id : Int) : BiddingSystem :=
  match alGet s.pending_confirmations conf_msg_id with
  | none => s
  | some _ => { s with pending_confirmations := alPop s.pending_confirmations conf_msg_id }

/-- Stable descending insertion by bid amount, mirroring Python
`sorted(bids, key=amount, reverse=True)`. -/
def insertDesc (b : BidRecord) : List BidRecord → List BidRecord
  | [] => [b]
  | c :: rest => if c.amount < b.amount then b :: c :: rest else c :: insertDesc b rest

def sortBidsDesc (l : List BidRecord) : List BidRecord :=
  l.foldl (fun acc b => insertDesc b acc) []

/-- `BiddingSystem.end_auction` (bidding.py 345-441), state effects only: mark
ended, append history (batch winners or single winner), remove the item from
the queue and clear the active auction. The follow-on control flow (next
auction / `finalize_session`) is a separate step. -/
def end_auction (s : BiddingSystem) (now : Int) : BiddingSystem :=
  match s.active_auction with
  | none => s
  | some a =>
    let is_batch := 1 < a.quantity
    let newHistory :=
      if is_batch ∧ a.bids ≠ [] then
        let winners := (sortBidsDesc a.bids).take a.quantity.toNat
        s.history ++ winners.map (fun w =>
          { item := a.item, winner := w.username, winner_id := w.user_id,
            amount := w.amount, timestamp := now })
      else
        match a.cur_winner with
        | some w =>
          s.history ++
            [{ item := a.item, winner := w, winner_id := a.cur_winner_id.getD 0,
               amount := a.cur_bid, timestamp := now }]
        | none => s.history
    { s with history := newHistory,
             queue := s.queue.filter (fun q => q.id != a.id),
             active_auction := none }

/-- `BiddingSystem.timer_end_auction` (bidding.py 337-343): after its sleep the
callback only checks that an auction exists with status `"active"` — it does
not compare the current time against `end_time` — and then runs
`end_auction`. -/
def timer_end_auction (s : BiddingSystem) (now : Int) : BiddingSystem :=
  match s.active_auction with
  | none => s
  | some a => if a.status ≠ "active" then s else end_auction s now

/-- The delay `schedule_auction_timers` (bidding.py 266-280) arms the end
callback with: `end_time - now` at scheduling time, so the callback fires at
the end time current at scheduling. -/
def schedule_end_delay (a : ActiveAuction) (now : Int) : Int :=
  a.end_time - now

/-- `BiddingSystem.finalize_session` (bidding.py 443-483), state effects:
when there is history and the settlement post succeeds, clear history, all
locked points and the snapshot; otherwise leave everything in place. -/
def finalize_session (s : BiddingSystem) (submit_ok : Bool) : BiddingSystem :=
  if s.history = [] then s
  else if submit_ok then
    { s with history := [],
             ledger := { cached_points := none, locked_points := [] } }
  else s

/-! ### Auctioneering system (auctioneering.py) -/

structure AuctionSession where
  boss_key : Option String
  boss_name : String
  attendees : List String
deriving Repr, DecidableEq

structure CurrentItem where
  item : String
  start_price : Int
  duration : Int
  quantity : Int
  source : String
  cur_bid : Int
  cur_winner : Option String
  cur_winner_id : Option Int
  bids : List BidRecord
  end_time : Int
  ext_count : Nat
  status : String
  going_once : Bool
  going_twice : Bool
  current_session : Option AuctionSession
deriving Repr, DecidableEq

structure SessionItemRecord where
  item : String
  winner : String
  winner_id : Int
  amount : Int
  source : String
deriving Repr, DecidableEq

structure ManualItemRecord where
  item : String
  start_price : Int
  duration : Int
  winner : String
  winning_bid : Option Int
deriving Repr, DecidableEq

structure AuctioneeringSystem where
  bidding : BiddingSystem
  active : Bool
  current_item : Option CurrentItem
  current_item_index : Nat
  session_items : List SessionItemRecord
  manual_items_auctioned : List ManualItemRecord
deriving Repr, DecidableEq

/-- `AuctioneeringSystem.can_user_bid` (auctioneering.py 116-125): open (no
item, no session or falsy boss key) admits everyone; a boss-keyed session
admits exactly the case-insensitive roster matches. -/
def can_user_bid (st : AuctioneeringSystem) (username : String) : Bool :=
  match st.current_item with
  | none => true
  | some ci =>
    match ci.current_session with
    | none => true
    | some sess =>
      match sess.boss_key with
      | none => true
      | some k =>
        if k = "" then true
        else sess.attendees.any (fun m => pyLower m == pyLower username)

/-- `AuctioneeringSystem.item_end` (auctioneering.py 418-516), state effects:
mark the item ended, record the sale (or the manual no-sale), advance the item
index. The bidding ledger is not touched anywhere in the function. -/
def item_end (st : AuctioneeringSystem) : AuctioneeringSystem :=
  if !st.active then st
  else
    match st.current_item with
    | none => st
    | some ci =>
      let ci' := { ci with status := "ended" }
      match ci.cur_winner with
      | some w =>
        { st with
            current_item := some ci',
            session_items := st.session_items ++
              [{ item := ci.item, winner := w, winner_id := ci.cur_winner_id.getD 0,
                 amount := ci.cur_bid, source := ci.source }],
            manual_items_auctioned :=
              if ci.source = "QueueList" then
                st.manual_items_auctioned ++
                  [{ item := ci.item, start_price := ci.start_price,
                     duration := ci.duration, winner := w,
                     winning_bid := some ci.cur_bid }]
              else st.manual_items_auctioned,
            current_item_index := st.current_item_index + 1 }
      | none =>
        { st with
            current_item := some ci',
            manual_items_auctioned :=
              if ci.source = "QueueList" then
                st.manual_items_auctioned ++
                  [{ item := ci.item, start_price := ci.start_price,
                     duration := ci.duration, winner := "",
                     winning_bid := none }]
              else st.manual_items_auctioned,
            current_item_index := st.current_item_index + 1 }

/-! ### Step relation for reachability (claim C1) -/

/-- One ledger-affecting operation of the bidding system: a snapshot load, a
raw reservation, a raw release, a bid submission, a confirmation, a
cancel/timeout, an item end or a finalization. -/
inductive SysStep : BiddingSystem → BiddingSystem → Prop
  | load (s : BiddingSystem) (pts : Dict) : SysStep s (load_points_cache s pts)
  | reserve (s : BiddingSystem) (u : String) (amt : Int) :
      SysStep s { s with ledger := lock_points s.ledger u amt }
  | release (s : BiddingSystem) (u : String) (amt : Int) :
      SysStep s { s with ledger := unlock_points s.ledger u amt }
  | submit (s : BiddingSystem) (mid : Int) (u : String) (it hr : Bool)
      (amt : Option Int) (now omid cid : Int) :
      SysStep s (process_bid s mid u it hr amt now omid cid).1
  | confirm (s : BiddingSystem) (cid now : Int) :
      SysStep s (confirm_bid s cid now).1
  | cancel (s : BiddingSystem) (cid : Int) : SysStep s (cancel_bid s cid)
  | endItem (s : BiddingSystem) (now : Int) : SysStep s (end_auction s now)
  | finalize (s : BiddingSystem) (ok : Bool) : SysStep s (finalize_session s ok)

def Reachable : BiddingSystem → BiddingSystem → Prop :=
  Relation.ReflTransGen SysStep

/-! ### Concrete states used to exercise the operations -/

def c1_init : BiddingSystem :=
  { ledger := { cached_points := none, locked_points := [] },
    queue := [], active_auction := none, history := [],
    pending_confirmations := [], last_bid_time := [] }

def c1_mid : BiddingSystem := load_points_cache c1_init [("Ann", 100)]

def c1_state : BiddingSystem := { c1_mid with ledger := lock_points c1_mid.ledger "Ann" 30 }

def c2_auction : ActiveAuction :=
  { id := "a2", item := "Shield", start_price := 50, quantity := 1, cur_bid := 50,
    cur_winner := none, cur_winner_id := none, bids := [],
    end_time := 100000, ext_count := 0, status := "active",
    going_once := false, going_twice := false }

def c2_state0 : BiddingSystem :=
  { ledger := { cached_points := some [("Ann", 1000), ("Ben", 1000)], locked_points := [] },
    queue := [], active_auction := some c2_auction, history := [],
    pending_confirmations := [], last_bid_time := [] }

def c2_state1 : BiddingSystem := (process_bid c2_state0 1 "Ann" true true (some 100) 10 900 1).1

def c2_state2 : BiddingSystem := (process_bid c2_state1 2 "Ben" true true (some 120) 14 901 2).1

def c2_state3 : BiddingSystem := (confirm_bid c2_state2 2 20).1

def c2_p100 : PendingConfirmation :=
  { user_id := 1, username := "Ann", amount := 100, timestamp := 10,
    orig_msg_id := 900, is_self := false, needed := 100 }

def c2_a3 : ActiveAuction :=
  { id := "a2", item := "Shield", start_price := 50, quantity := 1, cur_bid := 120,
    cur_winner := some "Ben", cur_winner_id := some 2,
    bids := [{ username := "Ben", user_id := 2, amount := 120, timestamp := 20 }],
    end_time := 100000, ext_count := 0, status := "active",
    going_once := false, going_twice := false }

def c3_auction : ActiveAuction :=
  { id := "a3", item := "Helm", start_price := 50, quantity := 1, cur_bid := 100,
    cur_winner := some "Alice", cur_winner_id := some 1,
    bids := [{ username := "Alice", user_id := 1, amount := 100, timestamp := 5 }],
    end_time := 100000, ext_count := 0, status := "active",
    going_once := false, going_twice := false }

def c3_state0 : BiddingSystem :=
  { ledger := { cached_points := some [("Alice", 1000), ("Bob", 1000)],
                locked_points := [("Alice", 100)] },
    queue := [], active_auction := some c3_auction, history := [],
    pending_confirmations := [], last_bid_time := [] }

def c3_state1 : BiddingSystem := (process_bid c3_state0 1 "Alice" true true (some 150) 10 901 101).1

def c3_state2 : BiddingSystem := (process_bid c3_state1 2 "Bob" true true (some 120) 14 902 102).1

def c3_state3 : BiddingSystem := (confirm_bid c3_state2 102 20).1

def c3_state4 : BiddingSystem := (confirm_bid c3_state3 101 25).1

def c3_p101 : PendingConfirmation :=
  { user_id := 1, username := "Alice", amount := 150, timestamp := 10,
    orig_msg_id := 901, is_self := true, needed := 50 }

def c3_a3 : ActiveAuction :=
  { id := "a3", item := "Helm", start_price := 50, quantity := 1, cur_bid := 120,
    cur_winner := some "Bob", cur_winner_id := some 2,
    bids := [{ username := "Alice", user_id := 1, amount := 100, timestamp := 5 },
             { username := "Bob", user_id := 2, amount := 120, timestamp := 20 }],
    end_time := 100000, ext_count := 0, status := "active",
    going_once := false, going_twice := false }

def c4_auction : ActiveAuction :=
  { id := "a4", item := "Ring", start_price := 50, quantity := 1, cur_bid := 100,
    cur_winner := some "Ann", cur_winner_id := some 1,
    bids := [{ username := "Ann", user_id := 1, amount := 100, timestamp := 5 }],
    end_time := 100000, ext_count := 0, status := "active",
    going_once := false, going_twice := false }

def c4_state0 : BiddingSystem :=
  { ledger := { cached_points := some [("Ann", 1000)], locked_points := [("Ann", 100)] },
    queue := [], active_auction := some c4_auction, history := [],
    pending_confirmations := [], last_bid_time := [] }

def c4_state1 : BiddingSystem := (process_bid c4_state0 1 "Ann" true true (some 150) 10 903 500).1

def c4_state2 : BiddingSystem := (confirm_bid c4_state1 500 20).1

def c4_p500 : PendingConfirmation :=
  { user_id := 1, username := "Ann", amount := 150, timestamp := 10,
    orig_msg_id := 903, is_self := true, needed := 50 }

def c5_auction : ActiveAuction :=
  { id := "a5", item := "Sword", start_price := 10, quantity := 1, cur_bid := 10,
    cur_winner := none, cur_winner_id := none, bids := [],
    end_time := 100, ext_count := 0, status := "active",
    going_once := false, going_twice := false }

def c5_mkPending (i amt : Int) (name : String) : Int × PendingConfirmation :=
  (i, { user_id := i, username := name, amount := amt, timestamp := 0,
        orig_msg_id := 0, is_self := false, needed := amt })

def c5_state0 : BiddingSystem :=
  { ledger := { cached_points := none, locked_points := [] },
    queue := [], active_auction := some c5_auction, history := [],
    pending_confirmations :=
      [c5_mkPending 1 20 "U1", c5_mkPending 2 30 "U2", c5_mkPending 3 40 "U3",
       c5_mkPending 4 50 "U4", c5_mkPending 5 60 "U5", c5_mkPending 6 70 "U6",
       c5_mkPending 7 80 "U7", c5_mkPending 8 90 "U8", c5_mkPending 9 100 "U9",
       c5_mkPending 10 110 "U10", c5_mkPending 11 120 "U11", c5_mkPending 12 130 "U12",
       c5_mkPending 13 140 "U13", c5_mkPending 14 150 "U14", c5_mkPending 15 160 "U15",
       c5_mkPending 16 170 "U16"],
    last_bid_time := [] }

/-- Run a list of `(conf_msg_id, now)` confirmations in order. -/
def confirmSeq (s : BiddingSystem) (l : List (Int × Int)) : BiddingSystem :=
  l.foldl (fun st pr => (confirm_bid st pr.1 pr.2).1) s

/-- Fifteen confirmations, each landing 50 seconds before the then-current
end time (so each qualifies for an extension). -/
def c5_state15 : BiddingSystem :=
  confirmSeq c5_state0
    [(1, 50), (2, 110), (3, 170), (4, 230), (5, 290), (6, 350), (7, 410), (8, 470),
     (9, 530), (10, 590), (11, 650), (12, 710), (13, 770), (14, 830), (15, 890)]

def c5_final : BiddingSystem := (confirm_bid c5_state15 16 950).1

def c6_auction : ActiveAuction :=
  { id := "a6", item := "Axe", start_price := 50, quantity := 1, cur_bid := 50,
    cur_winner := none, cur_winner_id := none, bids := [],
    end_time := 100, ext_count := 0, status := "active",
    going_once := false, going_twice := false }

def c6_state0 : BiddingSystem :=
  { ledger := { cached_points := some [("V", 1000)], locked_points := [] },
    queue := [], active_auction := some c6_auction, history := [],
    pending_confirmations :=
      [(7, { user_id := 2, username := "V", amount := 60, timestamp := 5,
             orig_msg_id := 0, is_self := false, needed := 60 })],
    last_bid_time := [] }

def c6_state1 : BiddingSystem := (confirm_bid c6_state0 7 50).1

def c7_auction : ActiveAuction :=
  { id := "a7", item := "Bow", start_price := 10, quantity := 1, cur_bid := 10,
    cur_winner := none, cur_winner_id := none, bids := [],
    end_time := 100000, ext_count := 0, status := "active",
    going_once := false, going_twice := false }

def c7_state0 : BiddingSystem :=
  { ledger := { cached_points := some [("Eve", 1000)], locked_points := [] },
    queue := [], active_auction := some c7_auction, history := [],
    pending_confirmations := [], last_bid_time := [] }

def c7_state1 : BiddingSystem := { c7_state0 with last_bid_time := [(5, 99)] }

def c8_state : LedgerState :=
  { cached_points := some [("Kim", 500)], locked_points := [("Kim", 70)] }

def c9_session : AuctionSession :=
  { boss_key := some "EGO 10/27/25 17:57", boss_name := "EGO",
    attendees := ["Alice", "Bob"] }

def c9_item : CurrentItem :=
  { item := "Orb", start_price := 10, duration := 5, quantity := 1,
    source := "GoogleSheet", cur_bid := 10, cur_winner := none,
    cur_winner_id := none, bids := [], end_time := 0, ext_count := 0,
    status := "active", going_once := false, going_twice := false,
    current_session := some c9_session }

def c9_state : AuctioneeringSystem :=
  { bidding := c1_init, active := true, current_item := some c9_item,
    current_item_index := 0, session_items := [], manual_items_auctioned := [] }

def c10_state : BiddingSystem :=
  { ledger := { cached_points := some [("Ann", 1000)], locked_points := [("Ann", 150)] },
    queue := [], active_auction := none,
    history := [{ item := "Ring", winner := "Ann", winner_id := 1, amount := 150,
                  timestamp := 30 }],
    pending_confirmations := [], last_bid_time := [] }

/-! ### Helper lemmas about the dictionary model -/

theorem alGet_alSet_self {κ α : Type} [DecidableEq κ] (d : List (κ × α)) (k : κ) (v : α) :
    alGet (alSet d k v) k = some v := by
  induction d with
  | nil => simp [alSet, alGet]
  | cons hd tl ih =>
    obtain ⟨k', v'⟩ := hd
    by_cases h : k' = k
    · simp [alSet, alGet, h]
    · simp [alSet, alGet, h, ih]

theorem alGet_alPop_self {κ α : Type} [DecidableEq κ] (d : List (κ × α)) (k : κ) :
    alGet (alPop d k) k = none := by
  induction d with
  | nil => simp [alPop, alGet]
  | cons hd tl ih =>
    obtain ⟨k', v'⟩ := hd
    by_cases h : k' = k
    · simp [alPop, h, ih]
    · simp [alPop, alGet, h, ih]

theorem unlock_points_get (s : LedgerState) (u : String) (a : Int) :
    alGet (unlock_points s u a).locked_points u
      = (if max 0 (alGetD s.locked_points u 0 - a) = 0 then none
         else some (max 0 (alGetD s.locked_points u 0 - a))) := by
  unfold unlock_points
  by_cases h : max 0 (alGetD s.locked_points u 0 - a) = 0
  · simp [h, alGet_alPop_self]
  · simp [h, alGet_alSet_self]

theorem unlock_points_getD (s : LedgerState) (u : String) (a : Int) :
    alGetD (unlock_points s u a).locked_points u 0
      = max 0 (alGetD s.locked_points u 0 - a) := by
  simp only [alGetD, unlock_points_get]
  by_cases h : max 0 (alGetD s.locked_points u 0 - a) = 0
  · simp only [alGetD] at h
    simp [h]
  · simp only [alGetD] at h
    simp [h]

/-! ### Helper lemmas about process_bid -/

theorem process_bid_insufficient_eq (s : BiddingSystem) (mid : Int) (u : String)
    (bv now omid cid : Int) (a : ActiveAuction)
    (ha : s.active_auction = some a)
    (hstat : a.status = "active")
    (hrl : rateLimitHit s mid now = false)
    (hpos : 0 < bv)
    (hfresh : a.cur_bid < bv)
    (hc : cacheFalsy s.ledger = false)
    (htot : get_points s.ledger u ≠ 0)
    (hins : get_available_points s.ledger u
              < (if isSelfOverbid a u then max 0 (bv - alGetD s.ledger.locked_points u 0) else bv)) :
    process_bid s mid u true true (some bv) now omid cid = (s, BidOutcome.insufficient) := by
  unfold process_bid
  rw [ha]
  dsimp only
  rw [if_neg (not_not_intro hstat), if_neg (not_le.mpr hpos), if_neg (not_le.mpr hfresh)]
  simp only [hrl, hc, Bool.false_eq_true, if_false]
  rw [if_neg htot, if_pos hins]
  simp

theorem process_bid_success_eq (s : BiddingSystem) (mid : Int) (u : String)
    (bv now omid cid : Int) (a : ActiveAuction)
    (ha : s.active_auction = some a)
    (hstat : a.status = "active")
    (hrl : rateLimitHit s mid now = false)
    (hpos : 0 < bv)
    (hfresh : a.cur_bid < bv)
    (hc : cacheFalsy s.ledger = false)
    (htot : get_points s.ledger u ≠ 0)
    (hsuff : ¬ get_available_points s.ledger u
              < (if isSelfOverbid a u then max 0 (bv - alGetD s.ledger.locked_points u 0) else bv)) :
    process_bid s mid u true true (some bv) now omid cid
      = ({ s with
           pending_confirmations :=
             alSet s.pending_confirmations cid
               { user_id := mid, username := u, amount := bv, timestamp := now,
                 orig_msg_id := omid, is_self := isSelfOverbid a u,
                 needed := if isSelfOverbid a u
                           then max 0 (bv - alGetD s.ledger.locked_points u 0) else bv },
           last_bid_time := alSet s.last_bid_time mid now },
         BidOutcome.confirmationCreated) := by
  unfold process_bid
  rw [ha]
  dsimp only
  rw [if_neg (not_not_intro hstat), if_neg (not_le.mpr hpos), if_neg (not_le.mpr hfresh)]
  simp only [hrl, hc, Bool.false_eq_true, if_false]
  rw [if_neg htot, if_neg hsuff]
  simp

set_option maxHeartbeats 1600000 in
theorem process_bid_frame (s : BiddingSystem) (mid : Int) (u : String)
    (it hr : Bool) (amt : Option Int) (now omid cid : Int) :
    (process_bid s mid u it hr amt now omid cid).1 = s
    ∨ (process_bid s mid u it hr amt now omid cid).2 = BidOutcome.confirmationCreated := by
  unfold process_bid
  cases ha : s.active_auction with
  | none => exact Or.inl rfl
  | some a =>
    dsimp only
    split_ifs <;> try exact Or.inl rfl
    all_goals cases amt
    all_goals try exact Or.inl rfl
    all_goals dsimp only
    all_goals split_ifs <;> first | exact Or.inl rfl | exact Or.inr rfl

theorem process_bid_rate_limited_eq (s : BiddingSystem) (mid : Int) (u : String)
    (amt : Option Int) (now omid cid : Int) (a : ActiveAuction) (t : Int)
    (ha : s.active_auction = some a)
    (hstat : a.status = "active")
    (ht : alGet s.last_bid_time mid = some t)
    (hrecent : now - t < RATE_LIMIT) :
    process_bid s mid u true true amt now omid cid = (s, BidOutcome.rateLimited) := by
  unfold process_bid
  rw [ha]
  dsimp only
  rw [if_neg (not_not_intro hstat)]
  have hhit : rateLimitHit s mid now = true := by
    unfold rateLimitHit
    rw [ht]
    simpa using hrecent
  rw [if_pos hhit]
  simp

/-! ### Claim theorems -/

/-- Claim C1: at every state of the bidding system reachable by snapshot
loads, reservations, releases, bid submissions and confirmations,
`availableOf(m)` equals `max 0 (totalOf m - lockedOf m)` and is therefore
never negative. -/
theorem availableOf_reachable_invariant (s0 s : BiddingSystem) (_h : Reachable s0 s)
    (m : String) :
    get_available_points s.ledger m
      = max 0 (get_points s.ledger m - alGetD s.ledger.locked_points m 0)
    ∧ 0 ≤ get_available_points s.ledger m :=
  ⟨rfl, le_max_left 0 _⟩

/-- Witness for C1: a state actually reached by a snapshot load followed by a
reservation satisfies the invariant. -/
theorem availableOf_reachable_invariant_witness :
    Reachable c1_init c1_state
    ∧ (get_available_points c1_state.ledger "Ann"
         = max 0 (get_points c1_state.ledger "Ann"
                    - alGetD c1_state.ledger.locked_points "Ann" 0)
       ∧ 0 ≤ get_available_points c1_state.ledger "Ann") := by
  have hreach : Reachable c1_init c1_state :=
    Relation.ReflTransGen.tail
      (Relation.ReflTransGen.single (SysStep.load c1_init [("Ann", 100)]))
      (SysStep.reserve c1_mid "Ann" 30)
  exact ⟨hreach, availableOf_reachable_invariant c1_init c1_state hreach "Ann"⟩

/-- Claim C2: a confirmation whose proposed amount is no longer strictly above
the current bid is rejected as stale: the pending record is dropped and the
ledger and the auction item are left unchanged. -/
theorem confirm_stale_rejects_without_mutation (s : BiddingSystem) (cid now : Int)
    (p : PendingConfirmation) (a : ActiveAuction)
    (hp : alGet s.pending_confirmations cid = some p)
    (ha : s.active_auction = some a)
    (hstale : p.amount ≤ a.cur_bid) :
    confirm_bid s cid now
      = ({ s with pending_confirmations := alPop s.pending_confirmations cid },
         ConfirmOutcome.staleRejected)
    ∧ (confirm_bid s cid now).1.ledger = s.ledger
    ∧ (confirm_bid s cid now).1.active_auction = s.active_auction := by
  have h : confirm_bid s cid now
      = ({ s with pending_confirmations := alPop s.pending_confirmations cid },
         ConfirmOutcome.staleRejected) := by
    unfold confirm_bid
    rw [hp, ha]
    simp [hstale]
  exact ⟨h, by rw [h], by rw [h]⟩

/-- Witness for C2, realising the confirmation race of the spec: pendings at
100 and 120 on the same item, 120 confirmed first; confirming 100 afterwards
is rejected as stale and the current bid stays 120. -/
theorem confirm_stale_rejects_without_mutation_witness :
    alGet c2_state3.pending_confirmations 1 = some c2_p100
    ∧ c2_state3.active_auction = some c2_a3
    ∧ c2_p100.amount ≤ c2_a3.cur_bid
    ∧ c2_a3.cur_bid = 120
    ∧ (confirm_bid c2_state3 1 25
        = ({ c2_state3 with
             pending_confirmations := alPop c2_state3.pending_confirmations 1 },
           ConfirmOutcome.staleRejected)
       ∧ (confirm_bid c2_state3 1 25).1.ledger = c2_state3.ledger
       ∧ (confirm_bid c2_state3 1 25).1.active_auction = c2_state3.active_auction) :=
  ⟨by decide, by decide, by decide, by decide,
   confirm_stale_rejects_without_mutation c2_state3 1 25 c2_p100 c2_a3
     (by decide) (by decide) (by decide)⟩

/-- Counterexample to claim C3: Alice wins at 100 and proposes a self-overbid
at 150; before she confirms, Bob proposes and confirms 120 (which releases
Alice's 100 and makes Bob the winner at 120, with 120 locked). Alice's stored
confirmation still carries the proposal-time self-overbid flag, so when it is
applied the code skips the release of the displaced winner: Alice becomes the
winner at 150 while the outbid Bob keeps a 120-point reservation, refuting the
claim that an outbid member retains no reservation under every interleaving. -/
theorem displaced_self_overbid_keeps_outbid_lock :
    (confirm_bid c3_state3 101 25).2 = ConfirmOutcome.applied
    ∧ c3_state3.active_auction.map ActiveAuction.cur_winner = some (some "Bob")
    ∧ c3_state4.active_auction.map ActiveAuction.cur_winner = some (some "Alice")
    ∧ c3_state4.active_auction.map ActiveAuction.cur_bid = some 150
    ∧ alGetD c3_state4.ledger.locked_points "Bob" 0 = 120 := by
  refine ⟨by decide, by decide, by decide, by decide, by decide⟩

/-- Claim C3 as amended: when a confirmation is applied (fresh, with a previous
winner present), the previous winner's lock is released by the full current
winning amount exactly when the pending record's proposal-time self-overbid
flag is false; a pending flagged as self-overbid releases nothing even if its
proposer has since been displaced by another confirmed bid. -/
theorem confirm_release_gated_by_proposal_flag (s : BiddingSystem) (cid now : Int)
    (p : PendingConfirmation) (a : ActiveAuction) (w : String)
    (hp : alGet s.pending_confirmations cid = some p)
    (ha : s.active_auction = some a)
    (hfresh : a.cur_bid < p.amount)
    (hw : a.cur_winner = some w) :
    (confirm_bid s cid now).1.ledger
      = lock_points (if p.is_self then s.ledger else unlock_points s.ledger w a.cur_bid)
          p.username p.needed := by
  unfold confirm_bid
  rw [hp, ha]
  dsimp only
  rw [if_neg (not_le.mpr hfresh), hw]

/-- Witness for the amended C3, at the displaced-self-overbid state: applying
Alice's self-flagged confirmation only locks her delta and releases nothing. -/
theorem confirm_release_gated_by_proposal_flag_witness :
    alGet c3_state3.pending_confirmations 101 = some c3_p101
    ∧ c3_state3.active_auction = some c3_a3
    ∧ c3_a3.cur_bid < c3_p101.amount
    ∧ c3_a3.cur_winner = some "Bob"
    ∧ (confirm_bid c3_state3 101 25).1.ledger
        = lock_points
            (if c3_p101.is_self then c3_state3.ledger
             else unlock_points c3_state3.ledger "Bob" c3_a3.cur_bid)
            c3_p101.username c3_p101.needed :=
  ⟨by decide, by decide, by decide, by decide,
   confirm_release_gated_by_proposal_flag c3_state3 101 25 c3_p101 c3_a3 "Bob"
     (by decide) (by decide) (by decide) (by decide)⟩

/-- Claim C4: once a bid passes the checks before the funds step, the
reservation delta is `max 0 (amount - locked)` for the current winner and the
full amount otherwise; the bid is rejected as insufficient exactly when the
delta exceeds the available points, and otherwise the stored pending record
carries that delta. Concretely, a bidder winning at 100 (100 locked) whose 150
bid is confirmed gets a 50-point delta and ends with 150 locked, not 250. -/
theorem bid_needed_delta_and_insufficiency :
    (∀ (s : BiddingSystem) (mid : Int) (u : String) (bv now omid cid : Int)
       (a : ActiveAuction),
        s.active_auction = some a →
        a.status = "active" →
        rateLimitHit s mid now = false →
        0 < bv →
        a.cur_bid < bv →
        cacheFalsy s.ledger = false →
        get_points s.ledger u ≠ 0 →
        (((process_bid s mid u true true (some bv) now omid cid).2
             = BidOutcome.insufficient)
          ↔ get_available_points s.ledger u
              < (if isSelfOverbid a u
                 then max 0 (bv - alGetD s.ledger.locked_points u 0) else bv))
        ∧ (¬ get_available_points s.ledger u
              < (if isSelfOverbid a u
                 then max 0 (bv - alGetD s.ledger.locked_points u 0) else bv) →
            alGet (process_bid s mid u true true (some bv) now omid cid).1.pending_confirmations
                cid
              = some { user_id := mid, username := u, amount := bv, timestamp := now,
                       orig_msg_id := omid, is_self := isSelfOverbid a u,
                       needed := if isSelfOverbid a u
                                 then max 0 (bv - alGetD s.ledger.locked_points u 0)
                                 else bv }))
    ∧ (alGet c4_state1.pending_confirmations 500 = some c4_p500
       ∧ c4_p500.needed = 50
       ∧ alGetD c4_state2.ledger.locked_points "Ann" 0 = 150) := by
  constructor
  · intro s mid u bv now omid cid a ha hstat hrl hpos hfresh hc htot
    by_cases hins : get_available_points s.ledger u
        < (if isSelfOverbid a u then max 0 (bv - alGetD s.ledger.locked_points u 0) else bv)
    · rw [process_bid_insufficient_eq s mid u bv now omid cid a ha hstat hrl hpos hfresh hc
        htot hins]
      exact ⟨⟨fun _ => hins, fun _ => rfl⟩, fun hcon => absurd hins hcon⟩
    · rw [process_bid_success_eq s mid u bv now omid cid a ha hstat hrl hpos hfresh hc
        htot hins]
      refine ⟨⟨fun hcon => ?_, fun hlt => absurd hlt hins⟩, fun _ => ?_⟩
      · exact absurd hcon (by simp)
      · exact alGet_alSet_self _ _ _
  · exact ⟨by decide, by decide, by decide⟩

/-- Witness for C4 at the self-overbid scenario state: all guards hold and the
conclusion is obtained by applying the theorem. -/
theorem bid_needed_delta_and_insufficiency_witness :
    c4_state0.active_auction = some c4_auction
    ∧ c4_auction.status = "active"
    ∧ rateLimitHit c4_state0 1 10 = false
    ∧ (0 : Int) < 150
    ∧ c4_auction.cur_bid < 150
    ∧ cacheFalsy c4_state0.ledger = false
    ∧ get_points c4_state0.ledger "Ann" ≠ 0
    ∧ (((process_bid c4_state0 1 "Ann" true true (some 150) 10 903 500).2
           = BidOutcome.insufficient)
        ↔ get_available_points c4_state0.ledger "Ann"
            < (if isSelfOverbid c4_auction "Ann"
               then max 0 (150 - alGetD c4_state0.ledger.locked_points "Ann" 0) else 150)) :=
  ⟨rfl, rfl, by decide, by decide, by decide, by decide, by decide,
   (bid_needed_delta_and_insufficiency.1 c4_state0 1 "Ann" 150 10 903 500 c4_auction
     rfl rfl (by decide) (by decide) (by decide) (by decide) (by decide)).1⟩

/-- Claim C5: a confirmed bid landing with strictly less than 60 seconds to go
while `ext_count < MAX_EXTENSIONS` adds exactly 60 seconds, increments the
extension count and clears both warning flags; at the cap the bid is still
applied with no time added; and a concrete run of 16 qualifying confirmations
extends exactly 15 times, the 16th becoming the winning bid at an unchanged
deadline. -/
theorem extension_rule_and_cap :
    (∀ (s : BiddingSystem) (cid now : Int) (p : PendingConfirmation) (a : ActiveAuction),
        alGet s.pending_confirmations cid = some p →
        s.active_auction = some a →
        a.cur_bid < p.amount →
        a.end_time - now < 60 →
        a.ext_count < MAX_EXTENSIONS →
        (confirm_bid s cid now).2 = ConfirmOutcome.applied
        ∧ (confirm_bid s cid now).1.active_auction
            = some ({ a with
                      cur_bid := p.amount, cur_winner := some p.username,
                      cur_winner_id := some p.user_id,
                      bids := a.bids ++ [{ username := p.username, user_id := p.user_id,
                                           amount := p.amount, timestamp := now }],
                      end_time := a.end_time + 60, ext_count := a.ext_count + 1,
                      going_once := false, going_twice := false }))
    ∧ (∀ (s : BiddingSystem) (cid now : Int) (p : PendingConfirmation) (a : ActiveAuction),
        alGet s.pending_confirmations cid = some p →
        s.active_auction = some a →
        a.cur_bid < p.amount →
        MAX_EXTENSIONS ≤ a.ext_count →
        (confirm_bid s cid now).2 = ConfirmOutcome.applied
        ∧ (confirm_bid s cid now).1.active_auction
            = some ({ a with
                      cur_bid := p.amount, cur_winner := some p.username,
                      cur_winner_id := some p.user_id,
                      bids := a.bids ++ [{ username := p.username, user_id := p.user_id,
                                           amount := p.amount, timestamp := now }] }))
    ∧ (c5_final.active_auction.map ActiveAuction.ext_count = some 15
       ∧ c5_final.active_auction.map ActiveAuction.end_time = some 1000
       ∧ c5_final.active_auction.map ActiveAuction.cur_bid = some 170
       ∧ c5_final.active_auction.map ActiveAuction.cur_winner = some (some "U16")
       ∧ (confirm_bid c5_state15 16 950).2 = ConfirmOutcome.applied) := by
  refine ⟨?_, ?_, by decide, by decide, by decide, by decide, by decide⟩
  · intro s cid now p a hp ha hfresh hlt hext
    unfold confirm_bid
    rw [hp, ha]
    dsimp only
    rw [if_neg (not_le.mpr hfresh)]
    dsimp only
    rw [if_pos ⟨hlt, hext⟩]
    exact ⟨rfl, rfl⟩
  · intro s cid now p a hp ha hfresh hext
    unfold confirm_bid
    rw [hp, ha]
    dsimp only
    rw [if_neg (not_le.mpr hfresh)]
    dsimp only
    rw [if_neg (fun h => absurd h.2 (not_lt.mpr hext))]
    exact ⟨rfl, rfl⟩

/-- Witness for C5: the first confirmation of the 16-bid run qualifies and is
applied with a 60-second extension. -/
theorem extension_rule_and_cap_witness :
    alGet c5_state0.pending_confirmations 1 = some (c5_mkPending 1 20 "U1").2
    ∧ c5_state0.active_auction = some c5_auction
    ∧ c5_auction.cur_bid < (c5_mkPending 1 20 "U1").2.amount
    ∧ c5_auction.end_time - 50 < 60
    ∧ c5_auction.ext_count < MAX_EXTENSIONS
    ∧ (confirm_bid c5_state0 1 50).2 = ConfirmOutcome.applied :=
  ⟨by decide, by decide, by decide, by decide, by decide,
   (extension_rule_and_cap.1 c5_state0 1 50 (c5_mkPending 1 20 "U1").2 c5_auction
     (by decide) (by decide) (by decide) (by decide) (by decide)).1⟩

/-- Claim C6 (a bug in the code): after a bid-triggered extension moves
`end_time` from 100 to 160, the end callback armed at activation still fires at
the old deadline (`schedule_end_delay` = old end time) and
`timer_end_auction`'s guard checks only the status, not the clock, so the
still-active auction is ended at time 100, strictly before its current
end time of 160 — the extension never delays the actual ending. -/
theorem stale_end_timer_ends_before_new_deadline :
    schedule_end_delay c6_auction 0 = 100
    ∧ c6_state0.active_auction.map ActiveAuction.end_time = some 100
    ∧ (confirm_bid c6_state0 7 50).2 = ConfirmOutcome.applied
    ∧ c6_state1.active_auction.map ActiveAuction.end_time = some 160
    ∧ c6_state1.active_auction.map ActiveAuction.status = some "active"
    ∧ (timer_end_auction c6_state1 100).active_auction = none
    ∧ (100 : Int) < 160 := by
  refine ⟨by decide, by decide, by decide, by decide, by decide, by decide, by decide⟩

/-- Counterexample to claim C7: a bidder with no recent stamp submits a bid
that fails the price validation (5 is not above the current bid of 10); the
rate-limit check passed, yet the bidder's last-bid time is left unset — the
stamp is not written before the later validation steps. -/
theorem rejected_bid_leaves_last_bid_time :
    rateLimitHit c7_state0 5 100 = false
    ∧ (process_bid c7_state0 5 "Eve" true true (some 5) 100 904 600).2 = BidOutcome.tooLow
    ∧ (process_bid c7_state0 5 "Eve" true true (some 5) 100 904 600).1 = c7_state0
    ∧ alGet (process_bid c7_state0 5 "Eve" true true (some 5) 100 904 600).1.last_bid_time 5
        = none := by
  refine ⟨by decide, by decide, by decide, by decide⟩

/-- Claim C7 as amended: a bid stamped within the last 3 seconds is rejected
as rate-limited; the last-bid time is stamped only when every validation
passes and the pending confirmation is created (before the confirmation
wait) — any rejected bid leaves the whole state, including the stamp,
unchanged. -/
theorem rate_limit_reject_and_stamp_on_create :
    (∀ (s : BiddingSystem) (mid : Int) (u : String) (amt : Option Int)
       (now omid cid : Int) (a : ActiveAuction) (t : Int),
        s.active_auction = some a →
        a.status = "active" →
        alGet s.last_bid_time mid = some t →
        now - t < RATE_LIMIT →
        process_bid s mid u true true amt now omid cid = (s, BidOutcome.rateLimited))
    ∧ (∀ (s : BiddingSystem) (mid : Int) (u : String) (it hr : Bool) (amt : Option Int)
       (now omid cid : Int),
        (process_bid s mid u it hr amt now omid cid).1 = s
        ∨ (process_bid s mid u it hr amt now omid cid).2 = BidOutcome.confirmationCreated)
    ∧ (∀ (s : BiddingSystem) (mid : Int) (u : String) (bv now omid cid : Int)
       (a : ActiveAuction),
        s.active_auction = some a →
        a.status = "active" →
        rateLimitHit s mid now = false →
        0 < bv →
        a.cur_bid < bv →
        cacheFalsy s.ledger = false →
        get_points s.ledger u ≠ 0 →
        ¬ get_available_points s.ledger u
            < (if isSelfOverbid a u
               then max 0 (bv - alGetD s.ledger.locked_points u 0) else bv) →
        alGet (process_bid s mid u true true (some bv) now omid cid).1.last_bid_time mid
          = some now) := by
  refine ⟨?_, ?_, ?_⟩
  · intro s mid u amt now omid cid a t ha hstat ht hrecent
    exact process_bid_rate_limited_eq s mid u amt now omid cid a t ha hstat ht hrecent
  · intro s mid u it hr amt now omid cid
    exact process_bid_frame s mid u it hr amt now omid cid
  · intro s mid u bv now omid cid a ha hstat hrl hpos hfresh hc htot hsuff
    rw [process_bid_success_eq s mid u bv now omid cid a ha hstat hrl hpos hfresh hc
      htot hsuff]
    exact alGet_alSet_self _ _ _

/-- Witness for the amended C7: a bidder stamped 1 second ago is rejected as
rate-limited with the state unchanged. -/
theorem rate_limit_reject_and_stamp_on_create_witness :
    c7_state1.active_auction = some c7_auction
    ∧ c7_auction.status = "active"
    ∧ alGet c7_state1.last_bid_time 5 = some 99
    ∧ (100 : Int) - 99 < RATE_LIMIT
    ∧ process_bid c7_state1 5 "Eve" true true (some 50) 100 905 601
        = (c7_state1, BidOutcome.rateLimited) :=
  ⟨rfl, rfl, by decide, by decide,
   rate_limit_reject_and_stamp_on_create.1 c7_state1 5 "Eve" (some 50) 100 905 601
     c7_auction 99 rfl rfl (by decide) (by decide)⟩

/-- Claim C8: `release` decrements the locked amount floored at 0, removing the
entry exactly when the floored value is 0 (so locked is never negative), and a
second release of an already fully released amount leaves the locked amount at
0 with the entry absent. -/
theorem release_floors_at_zero_and_idempotent :
    (∀ (s : LedgerState) (u : String) (a : Int),
        alGetD (unlock_points s u a).locked_points u 0
          = max 0 (alGetD s.locked_points u 0 - a)
        ∧ 0 ≤ alGetD (unlock_points s u a).locked_points u 0
        ∧ alGet (unlock_points s u a).locked_points u
            = (if max 0 (alGetD s.locked_points u 0 - a) = 0 then none
               else some (max 0 (alGetD s.locked_points u 0 - a))))
    ∧ (∀ (s : LedgerState) (u : String) (a : Int),
        0 ≤ a →
        alGetD s.locked_points u 0 ≤ a →
        alGetD (unlock_points (unlock_points s u a) u a).locked_points u 0 = 0
        ∧ alGet (unlock_points (unlock_points s u a) u a).locked_points u = none) := by
  constructor
  · intro s u a
    refine ⟨unlock_points_getD s u a, ?_, unlock_points_get s u a⟩
    rw [unlock_points_getD s u a]
    exact le_max_left 0 _
  · intro s u a ha0 hle
    have h1 : alGetD (unlock_points s u a).locked_points u 0 = 0 := by
      rw [unlock_points_getD s u a]
      exact max_eq_left (sub_nonpos.mpr hle)
    have h3 : max 0 ((0 : Int) - a) = 0 := max_eq_left (sub_nonpos.mpr ha0)
    constructor
    · rw [unlock_points_getD, h1, h3]
    · rw [unlock_points_get, h1, h3]
      simp

/-- Witness for C8: releasing 70 twice for a member with 70 locked ends with 0
locked and no entry. -/
theorem release_floors_at_zero_and_idempotent_witness :
    (0 : Int) ≤ 70
    ∧ alGetD c8_state.locked_points "Kim" 0 ≤ 70
    ∧ (alGetD (unlock_points (unlock_points c8_state "Kim" 70) "Kim" 70).locked_points
         "Kim" 0 = 0
       ∧ alGet (unlock_points (unlock_points c8_state "Kim" 70) "Kim" 70).locked_points
           "Kim" = none) :=
  ⟨by decide, by decide,
   release_floors_at_zero_and_idempotent.2 c8_state "Kim" 70 (by decide) (by decide)⟩

/-- Claim C9: with no current item, no session back-reference or a falsy boss
key, everyone may bid; under a boss-keyed session a name is eligible exactly
when it matches a roster entry case-insensitively; with roster
{"Alice","Bob"}, "carol" is rejected while "ALICE" is accepted. -/
theorem eligibility_open_and_roster :
    (∀ (st : AuctioneeringSystem) (u : String),
        st.current_item = none → can_user_bid st u = true)
    ∧ (∀ (st : AuctioneeringSystem) (ci : CurrentItem) (u : String),
        st.current_item = some ci → ci.current_session = none →
        can_user_bid st u = true)
    ∧ (∀ (st : AuctioneeringSystem) (ci : CurrentItem) (sess : AuctionSession)
         (u : String),
        st.current_item = some ci → ci.current_session = some sess →
        sess.boss_key = none → can_user_bid st u = true)
    ∧ (∀ (st : AuctioneeringSystem) (ci : CurrentItem) (sess : AuctionSession)
         (k u : String),
        st.current_item = some ci → ci.current_session = some sess →
        sess.boss_key = some k → k ≠ "" →
        (can_user_bid st u = true ↔ ∃ m ∈ sess.attendees, pyLower m = pyLower u))
    ∧ (can_user_bid c9_state "carol" = false ∧ can_user_bid c9_state "ALICE" = true) := by
  refine ⟨?_, ?_, ?_, ?_, by decide, by decide⟩
  · intro st u h
    unfold can_user_bid
    rw [h]
  · intro st ci u h1 h2
    unfold can_user_bid
    rw [h1]
    dsimp only
    rw [h2]
  · intro st ci sess u h1 h2 h3
    unfold can_user_bid
    rw [h1]
    dsimp only
    rw [h2]
    dsimp only
    rw [h3]
  · intro st ci sess k u h1 h2 h3 hk
    unfold can_user_bid
    rw [h1]
    dsimp only
    rw [h2]
    dsimp only
    rw [h3]
    dsimp only
    rw [if_neg hk]
    simp [List.any_eq_true]

/-- Witness for C9 at the boss-keyed roster {"Alice","Bob"}: the roster
criterion applied to "ALICE". -/
theorem eligibility_open_and_roster_witness :
    c9_state.current_item = some c9_item
    ∧ c9_item.current_session = some c9_session
    ∧ c9_session.boss_key = some "EGO 10/27/25 17:57"
    ∧ "EGO 10/27/25 17:57" ≠ ""
    ∧ (can_user_bid c9_state "ALICE" = true
        ↔ ∃ m ∈ c9_session.attendees, pyLower m = pyLower "ALICE") :=
  ⟨rfl, rfl, rfl, by decide,
   eligibility_open_and_roster.2.2.2.1 c9_state c9_item c9_session "EGO 10/27/25 17:57"
     "ALICE" rfl rfl rfl (by decide)⟩

/-- Claim C10: ending an item — with or without a winner, in either ending
path — leaves the locked-points map (indeed the whole ledger, hence every
member's availability for later items) unchanged; the locks are cleared only
by run finalization after a successful settlement submission. -/
theorem end_paths_preserve_locked_points :
    (∀ (s : BiddingSystem) (now : Int), (end_auction s now).ledger = s.ledger)
    ∧ (∀ (s : BiddingSystem) (now : Int), (timer_end_auction s now).ledger = s.ledger)
    ∧ (∀ (st : AuctioneeringSystem), (item_end st).bidding = st.bidding)
    ∧ (∀ (s : BiddingSystem) (now : Int) (u : String),
        get_available_points (end_auction s now).ledger u
          = get_available_points s.ledger u)
    ∧ (∀ (s : BiddingSystem), s.history ≠ [] →
        (finalize_session s true).ledger.locked_points = []) := by
  have hend : ∀ (s : BiddingSystem) (now : Int), (end_auction s now).ledger = s.ledger := by
    intro s now
    unfold end_auction
    cases h : s.active_auction <;> rfl
  refine ⟨hend, ?_, ?_, ?_, ?_⟩
  · intro s now
    unfold timer_end_auction
    cases h : s.active_auction with
    | none => rfl
    | some a =>
      dsimp only
      split_ifs
      · rfl
      · exact hend s now
  · intro st
    unfold item_end
    split_ifs
    · rfl
    · cases h : st.current_item with
      | none => rfl
      | some ci =>
        dsimp only
        cases hw : ci.cur_winner <;> dsimp only
  · intro s now u
    rw [hend]
  · intro s h
    unfold finalize_session
    rw [if_neg h, if_pos rfl]

/-- Witness for C10: a run with one sold item (150 points still locked for the
winner) has its locks cleared by a successful finalization. -/
theorem end_paths_preserve_locked_points_witness :
    c10_state.history ≠ []
    ∧ (finalize_session c10_state true).ledger.locked_points = [] :=
  ⟨by decide, end_paths_preserve_locked_points.2.2.2.2 c10_state (by decide)⟩

end Elysium
